import Mathlib

/-!
# Verification of the py-nosql LSM storage stack

Shallow embedding of the repository sources:
* `src/py_nosql/storage/wal.py`     — the write-ahead log (`WAL`),
* `src/py_nosql/storage/sstable.py` — the immutable sorted segment (`SSTable`),
* `src/py_nosql/storage/lsm.py`     — the engine (`LSMEngine`),
* `src/py_nosql/document/schema.py` — the declarative validator (`Schema`),
* `src/py_nosql/document/collection.py` — the document layer (`Collection`).

Embedding conventions:
* Python `Optional[str]` values become `Option α`; `none` is both the tombstone
  and the not-found sentinel, exactly as the Python `None` conflates them.
* A Python `dict` (insertion ordered, in-place update of existing keys) is a
  `List (String × β)` manipulated only through `dictGet` / `dictSet`.
* File I/O is abstracted structurally: an SSTable is its list of data-file
  lines plus its parsed index; a byte offset recorded by `f.tell()` before the
  i-th line is modeled as the record position `i`, and `f.seek(off)` followed
  by line iteration is `List.drop off`.
* `json.dumps` of a document at the collection layer is injective and
  `json.loads` is its inverse, so the engine is made generic in the payload
  type `α`; the storage claims use `α := String` and the document claims store
  documents directly (`α := Doc`).
* Code that raises a Python exception is embedded as a function returning the
  raised error explicitly: operations that can raise return
  `σ × Except String τ` where the first component is the state as mutated up
  to the raise (Python exceptions do not roll back prior mutations).
* The chained assignment `index = Dict[str, int] = {}` in `sstable.py`
  (lines 12 and 20) is read as the evidently intended annotated initialization
  `index: Dict[str, int] = {}` of an empty dict.
-/

namespace PyNoSql

/-! ## Python dict primitives -/

/-- `m[k]` / `m.get(k)` on an insertion-ordered dict: the value of the first
(and, for dicts, only) entry whose key equals `k`. -/
def dictGet {β : Type} (m : List (String × β)) (k : String) : Option β :=
  (m.find? (fun kv => kv.1 == k)).map (fun kv => kv.2)

/-- `m[k] = v` on an insertion-ordered dict: update in place when the key is
present, append a fresh entry otherwise. -/
def dictSet {β : Type} (m : List (String × β)) (k : String) (v : β) :
    List (String × β) :=
  if m.any (fun kv => kv.1 == k) then
    m.map (fun kv => if kv.1 == k then (k, v) else kv)
  else
    m ++ [(k, v)]

/-- `k in m` for a dict. -/
def dictMem {β : Type} (m : List (String × β)) (k : String) : Bool :=
  m.any (fun kv => kv.1 == k)

/-! ## Python string comparison

Python compares strings lexicographically by code point.  These Bool-valued
orders mirror `<` and `<=` on `str` and are used by `SSTable.get`
(`k <= key`, `k > key`) and `SSTable.write` (`sorted(..., key=kv[0])`). -/

/-- Lexicographic strict order on code-point lists. -/
def charsLt : List Char → List Char → Bool
  | [], [] => false
  | [], _ :: _ => true
  | _ :: _, [] => false
  | a :: as, b :: bs =>
    if a.toNat < b.toNat then true
    else if b.toNat < a.toNat then false
    else charsLt as bs

/-- Python `a < b` on strings. -/
def pyStrLt (a b : String) : Bool := charsLt a.data b.data

/-- Python `a <= b` on strings. -/
def pyStrLe (a b : String) : Bool := pyStrLt a b || a == b

/-- Python `s.startswith(pre)`. -/
def pyStartsWith (s pre : String) : Bool := pre.data.isPrefixOf s.data

/-- Python `s[n:]` (drop the first `n` characters). -/
def pyDrop (s : String) (n : Nat) : String := String.mk (s.data.drop n)

/-- Python `len(s)` (character count). -/
def pyLen (s : String) : Nat := s.data.length

/-! ## SSTable (`src/py_nosql/storage/sstable.py`) -/

/-- An SSTable: the lines of its data file in file order (each holding
`{"key": k, "value": v}` with `none` the tombstone), and the sparse index file
content mapping sampled keys to offsets.  Offsets are record positions. -/
structure SSTable (α : Type) where
  records : List (String × Option α)
  index : List (String × Nat)
deriving DecidableEq

/-- `SSTable.INDEX_SAMPLE` (sstable.py line 7): the sampling stride, `0` in
the source. -/
def SSTable.INDEX_SAMPLE : Nat := 0

/-- The index built by the write loop for stride `sample ≥ 1`: position of
every `i`-th record with `i % sample == 0`. -/
def buildIndex {α : Type} (sample : Nat) (records : List (String × Option α)) :
    List (String × Nat) :=
  (records.enum).filterMap
    (fun p => if p.1 % sample == 0 then some (p.2.1, p.1) else none)

/-- `SSTable.write(path, items)` (sstable.py lines 17-30): sort the items by
key, write one line per record, indexing every record position `i` with
`i % INDEX_SAMPLE == 0`.  With the source constant `INDEX_SAMPLE = 0`, the
expression `i % SSTable.INDEX_SAMPLE` raises `ZeroDivisionError` at the very
first record, so writing any non-empty item list raises; only an empty item
list completes (the loop body never runs). -/
def SSTable.write {α : Type} (sample : Nat)
    (items : List (String × Option α)) : Except String (SSTable α) :=
  let sorted := items.mergeSort (fun a b => pyStrLe a.1 b.1)
  if sample == 0 then
    -- The loop body, where `i % SSTable.INDEX_SAMPLE` is evaluated, runs iff
    -- there is at least one record; sorting preserves emptiness.
    if items.isEmpty then .ok ⟨[], []⟩
    else .error "ZeroDivisionError: integer division or modulo by zero"
  else
    .ok ⟨sorted, buildIndex sample sorted⟩

/-- The forward scan of `SSTable.get` (sstable.py lines 48-53): return the
stored value of the record whose key equals the target, stop with `None` once
a strictly greater key is seen.  The returned Python value conflates a stored
tombstone with not-found. -/
def scanLookup {α : Type} : List (String × Option α) → String → Option α
  | [], _ => none
  | (k, v) :: rest, key =>
    if k == key then v
    else if pyStrLt key k then none
    else scanLookup rest key

/-- `SSTable.get(key)` (sstable.py lines 41-53).  The source computes the
candidate sampled keys `<= key`; when candidates exist it binds `start_key`
and `start_offset` but the scan loop exists only in the `else` (no candidate)
branch, so control falls off the end of the function and Python returns
`None`.  Only the no-candidate branch scans, from offset 0. -/
def SSTable.get {α : Type} (sst : SSTable α) (key : String) : Option α :=
  let candidates := (sst.index.map (fun kv => kv.1)).filter
    (fun k => pyStrLe k key)
  if candidates.isEmpty then
    scanLookup (sst.records.drop 0) key
  else
    none

/-! ## WAL (`src/py_nosql/storage/wal.py`) -/

/-- One line of the log file: a parseable put record, a parseable del record,
a blank line (skipped by `if not line.strip()`), or a line `json.loads`
cannot parse (torn write). -/
inductive WalLine (α : Type)
  | putLine (key : String) (value : Option α)
  | delLine (key : String)
  | blank
  | corrupt (raw : String)
deriving DecidableEq

/-- The WAL: the lines of `wal.log` in file order. -/
structure WAL (α : Type) where
  lines : List (WalLine α)
deriving DecidableEq

/-- `WAL.append_put(key, value)` (wal.py lines 14-18): write one record line
and fsync.  Note that `WAL` defines **no** `append_del` method; its only
methods are `append_put`, `replay`, `reset`, `close`. -/
def WAL.append_put {α : Type} (w : WAL α) (key : String) (value : Option α) :
    WAL α :=
  ⟨w.lines ++ [.putLine key value]⟩

/-- The fold of `WAL.replay` (wal.py lines 20-32): a put sets `key → value`,
a del sets `key → None`, blank lines are skipped.  `json.loads(line)` on an
unparseable line raises `json.JSONDecodeError`; `replay` installs no handler,
so the exception propagates and nothing is returned. -/
def replayLines {α : Type} :
    List (WalLine α) → List (String × Option α) →
    Except String (List (String × Option α))
  | [], mem => .ok mem
  | .blank :: rest, mem => replayLines rest mem
  | .corrupt _ :: _, _ => .error "json.JSONDecodeError"
  | .putLine k v :: rest, mem => replayLines rest (dictSet mem k v)
  | .delLine k :: rest, mem => replayLines rest (dictSet mem k none)

/-- `WAL.replay()` (wal.py lines 20-32). -/
def WAL.replay {α : Type} (w : WAL α) :
    Except String (List (String × Option α)) :=
  replayLines w.lines []

/-- `WAL.reset()` (wal.py lines 34-40): archive the current file under a
timestamped name and reopen a fresh empty log. -/
def WAL.reset {α : Type} (_ : WAL α) : WAL α := ⟨[]⟩

/-! ## LSM engine (`src/py_nosql/storage/lsm.py`) -/

/-- Engine state: the WAL, the memtable (a dict key → Optional value), the
flush threshold, and the SSTable list ordered oldest → newest. -/
structure LSMEngine (α : Type) where
  wal : WAL α
  memtable : List (String × Option α)
  memtable_limit : Nat
  sstables : List (SSTable α)
deriving DecidableEq

/-- `LSMEngine.flush()` (lsm.py lines 55-64): no-op on an empty memtable;
otherwise write the memtable items as a new SSTable, append it, reset the
WAL, clear the memtable.  `SSTable.write` raises on any non-empty memtable
(see `SSTable.write`); the raise happens before the list append, the WAL
reset and the memtable clear, so those mutations do not occur. -/
def LSMEngine.flush {α : Type} (e : LSMEngine α) :
    LSMEngine α × Except String Unit :=
  if e.memtable.isEmpty then (e, .ok ())
  else
    match SSTable.write SSTable.INDEX_SAMPLE e.memtable with
    | .error msg => (e, .error msg)
    | .ok sst =>
      ({ e with sstables := e.sstables ++ [sst], wal := e.wal.reset,
                memtable := [] }, .ok ())

/-- `LSMEngine.put(key, value)` (lsm.py lines 24-28): append to the WAL,
update the memtable, flush when the memtable size reached the threshold. -/
def LSMEngine.put {α : Type} (e : LSMEngine α) (key : String) (value : α) :
    LSMEngine α × Except String Unit :=
  let e1 : LSMEngine α :=
    { e with wal := e.wal.append_put key (some value),
             memtable := dictSet e.memtable key (some value) }
  if e1.memtable.length ≥ e1.memtable_limit then e1.flush else (e1, .ok ())

/-- `LSMEngine.delete(key)` (lsm.py lines 31-35): the first statement is
`self.wal.append_del(key)`, but `WAL` (wal.py) defines no `append_del`
attribute, so Python raises `AttributeError` before the memtable is touched:
no del record is written and no tombstone is set. -/
def LSMEngine.delete {α : Type} (e : LSMEngine α) (_ : String) :
    LSMEngine α × Except String Unit :=
  (e, .error "AttributeError: WAL object has no attribute append_del")

/-- `LSMEngine._exists_in_sstable(sst, key)` (lsm.py lines 49-52): re-runs
`sst.get(key)` and tests the result against `None`. -/
def LSMEngine.exists_in_sstable {α : Type} (sst : SSTable α) (key : String) :
    Bool :=
  (sst.get key).isSome

/-- The loop of `LSMEngine.get` over `reversed(self.sstables)` (lsm.py lines
42-45): `v = sst.get(key)`; the guard
`v is not None or v is None and self._exists_in_sstable(sst, key)` is
equivalent to `v is not None` because `_exists_in_sstable` recomputes the
same `sst.get(key)`, so an SSTable tombstone (or miss) falls through to the
next older SSTable. -/
def searchSSTables {α : Type} (key : String) :
    List (SSTable α) → Option α
  | [] => none
  | sst :: rest =>
    let v := sst.get key
    if v.isSome || (v.isNone && LSMEngine.exists_in_sstable sst key) then v
    else searchSSTables key rest

/-- `LSMEngine.get(key)` (lsm.py lines 38-46): the memtable is authoritative
when it contains the key (its stored value, possibly the tombstone `none`, is
returned); otherwise the SSTables are searched newest to oldest. -/
def LSMEngine.get {α : Type} (e : LSMEngine α) (key : String) : Option α :=
  match dictGet e.memtable key with
  | some v => v
  | none => searchSSTables key e.sstables.reverse

/-- The merge loop of `LSMEngine.compact` (lsm.py lines 73-81): records of
one SSTable are folded into the `merged` dict, keeping the first writer per
key (`if k not in merged`). -/
def mergeRecords {α : Type} :
    List (String × Option α) → List (String × Option α) →
    List (String × Option α)
  | merged, [] => merged
  | merged, (k, v) :: rest =>
    if dictMem merged k then mergeRecords merged rest
    else mergeRecords (merged ++ [(k, v)]) rest

/-- `LSMEngine.compact()` (lsm.py lines 67-97): no-op without SSTables;
otherwise fold all SSTables newest first into `merged` (newest wins), drop
the tombstones, write the survivors as one compacted SSTable, delete the old
files and replace the list.  `SSTable.write` raises on any non-empty
survivor set (INDEX_SAMPLE is 0), and the raise precedes the file deletions
and the list swap, so the old state is kept. -/
def LSMEngine.compact {α : Type} (e : LSMEngine α) :
    LSMEngine α × Except String Unit :=
  if e.sstables.isEmpty then (e, .ok ())
  else
    let merged := e.sstables.reverse.foldl
      (fun acc sst => mergeRecords acc sst.records) []
    let survivors := merged.filter (fun kv => kv.2.isSome)
    match SSTable.write SSTable.INDEX_SAMPLE survivors with
    | .error msg => (e, .error msg)
    | .ok newSst => ({ e with sstables := [newSst] }, .ok ())

/-! ## Document values and schemas (`src/py_nosql/document/schema.py`)

Documents are JSON objects; field values in the claims are strings, integers
and booleans, which `Value` covers (floats, lists and nested objects are not
exercised by any claim). -/

/-- A document field value. -/
inductive Value
  | vStr (s : String)
  | vInt (n : Int)
  | vBool (b : Bool)
deriving DecidableEq

/-- A document: a JSON object, i.e. an insertion-ordered dict from field name
to value. -/
abbrev Doc := List (String × Value)

/-- The Python classes a `type` rule can name (`str`, `int`, `bool`). -/
inductive PyType
  | pyStr
  | pyInt
  | pyBool
deriving DecidableEq

/-- Python `isinstance(val, t)`.  A Python `bool` is a subclass of `int`, so
`isinstance(True, int)` holds. -/
def isinstance : Value → PyType → Bool
  | .vStr _, .pyStr => true
  | .vInt _, .pyInt => true
  | .vBool _, .pyBool => true
  | .vBool _, .pyInt => true
  | _, _ => false

/-- The numeric view used by `isinstance(val, (int, float))`: integers and
booleans (`True` counts as `1`, `False` as `0`). -/
def Value.asNum : Value → Option Int
  | .vInt n => some n
  | .vBool b => some (if b then 1 else 0)
  | _ => none

/-- The `length` sub-rules for string values (schema.py lines 48-57). -/
structure LengthRules where
  lgt : Option Nat
  lgte : Option Nat
  llt : Option Nat
  llte : Option Nat
deriving DecidableEq

/-- The rule set of one schema field.  An `Option` field is `none` when the
rule key is absent from the Python rules dict; `unique?` distinguishes an
absent `"unique"` key (`none`) from a present one (`some b`), because
`Collection.insert` tests key presence (`"unique" in rules`) while
`Schema.validate` tests truthiness (`rules.get("unique")`). -/
structure FieldRules where
  type? : Option PyType
  unique? : Option Bool
  length? : Option LengthRules
  ngt : Option Int
  ngte : Option Int
  nlt : Option Int
  nlte : Option Int
  enum? : Option (List Value)
  ref? : Option String
deriving DecidableEq

/-- A rule set with every rule key absent. -/
def FieldRules.empty : FieldRules :=
  ⟨none, none, none, none, none, none, none, none, none⟩

/-- The first offending rule, by kind and field, reported by the schema
(Python raises `TypeError` for `type` and `ValueError` with a rule-specific
message for the rest). -/
inductive ValidationError
  | typeErr (field : String)
  | uniqueErr (field : String)
  | lengthErr (field : String)
  | numericErr (field : String)
  | enumErr (field : String)
  | refErr (field : String)
deriving DecidableEq

/-- `Schema.__init__` state (schema.py lines 4-16): the field → rules dict
and the in-memory registry `_unique_values` of observed unique values (a dict
field → set, kept here as a duplicate-free list). -/
structure Schema where
  fields : List (String × FieldRules)
  uniqueValues : List (String × List Value)
deriving DecidableEq

/-- `Schema(fields)` (schema.py line 16): the registry holds exactly the
fields whose rules carry a truthy `unique`. -/
def Schema.ofFields (fields : List (String × FieldRules)) : Schema :=
  ⟨fields, fields.filterMap
    (fun fr => if fr.2.unique? == some true then some (fr.1, []) else none)⟩

/-- `self._unique_values[field]` (schema.py line 44); constructed schemas
hold an entry for every unique field. -/
def Schema.registryOf (sch : Schema) (field : String) : List Value :=
  (dictGet sch.uniqueValues field).getD []

/-- `Schema.register(doc)` (schema.py lines 86-91): add the document value of
every registry field to that field's set. -/
def Schema.register (sch : Schema) (doc : Doc) : Schema :=
  ⟨sch.fields, sch.uniqueValues.map (fun fv =>
    match dictGet doc fv.1 with
    | some v => (fv.1, if fv.2.contains v then fv.2 else fv.2 ++ [v])
    | none => fv)⟩

/-! ## Collection state (`src/py_nosql/document/collection.py`)

`Schema.validate` consults sibling collections for `ref` rules, so the
collection state is declared first and the validator after it. -/

/-- `Collection.__init__` (collection.py lines 10-13): the shared engine, the
key namespace `f"{name}:"`, and the optional schema.  The engine payload type
is `Doc` because `_to_stored` / `_from_stored` are the inverse pair
`json.dumps` / `json.loads`. -/
structure Collection where
  engine : LSMEngine Doc
  pfx : String
  schema : Option Schema
deriving DecidableEq

/-- `Collection._k(doc_id)` (collection.py lines 15-16). -/
def Collection.key (c : Collection) (docId : String) : String :=
  c.pfx ++ docId

/-- `Collection.get(doc_id)` (collection.py lines 58-60): engine lookup under
the prefixed key; a tombstone and a miss are both `None`. -/
def Collection.get (c : Collection) (docId : String) : Option Doc :=
  c.engine.get (c.key docId)

/-! ## Schema validation (`src/py_nosql/document/schema.py`, lines 18-84) -/

/-- The `type` rule (schema.py lines 36-37). -/
def checkType (field : String) (rules : FieldRules) (val : Value) :
    Except ValidationError Unit :=
  if rules.type?.any (fun t => ! isinstance val t) then
    .error (.typeErr field)
  else .ok ()

/-- The `unique` rule (schema.py lines 40-45): scan the caller-supplied
existing documents, then the in-memory registry. -/
def checkUnique (field : String) (rules : FieldRules) (val : Value)
    (existing : List Doc) (registry : List Value) :
    Except ValidationError Unit :=
  if rules.unique?.getD false then
    if existing.any (fun d => dictGet d field == some val) then
      .error (.uniqueErr field)
    else if registry.contains val then
      .error (.uniqueErr field)
    else .ok ()
  else .ok ()

/-- The `length` rules, applied to string values only (schema.py lines
48-57), in source order gt, gte, lt, lte. -/
def checkLength (field : String) (rules : FieldRules) (val : Value) :
    Except ValidationError Unit :=
  match val, rules.length? with
  | .vStr s, some lr =>
    if lr.lgt.any (fun b => ! decide (pyLen s > b)) then
      .error (.lengthErr field)
    else if lr.lgte.any (fun b => ! decide (pyLen s ≥ b)) then
      .error (.lengthErr field)
    else if lr.llt.any (fun b => ! decide (pyLen s < b)) then
      .error (.lengthErr field)
    else if lr.llte.any (fun b => ! decide (pyLen s ≤ b)) then
      .error (.lengthErr field)
    else .ok ()
  | _, _ => .ok ()

/-- The numeric bound rules, applied to int/float values (schema.py lines
60-70), in source order $gt, $gte, $lt, $lte. -/
def checkNumeric (field : String) (rules : FieldRules) (val : Value) :
    Except ValidationError Unit :=
  match val.asNum with
  | none => .ok ()
  | some n =>
    if rules.ngt.any (fun b => ! decide (n > b)) then
      .error (.numericErr field)
    else if rules.ngte.any (fun b => ! decide (n ≥ b)) then
      .error (.numericErr field)
    else if rules.nlt.any (fun b => ! decide (n < b)) then
      .error (.numericErr field)
    else if rules.nlte.any (fun b => ! decide (n ≤ b)) then
      .error (.numericErr field)
    else .ok ()

/-- The `enum` rule (schema.py lines 73-75). -/
def checkEnum (field : String) (rules : FieldRules) (val : Value) :
    Except ValidationError Unit :=
  if rules.enum?.any (fun l => ! l.contains val) then
    .error (.enumErr field)
  else .ok ()

/-- The `ref` rule (schema.py lines 78-82): look the named collection up in
the caller-supplied dict; a missing collection skips the check (the guard
`if ref_collection and ...`); otherwise the referenced id must resolve via
`ref_collection.get`.  A non-string id would fail the string concatenation
inside `get` in Python; no claim exercises that path. -/
def checkRef (field : String) (rules : FieldRules) (val : Value)
    (cols : List (String × Collection)) : Except ValidationError Unit :=
  match rules.ref? with
  | none => .ok ()
  | some name =>
    match dictGet cols name with
    | none => .ok ()
    | some rc =>
      match val with
      | .vStr docId =>
        if (rc.get docId).isNone then .error (.refErr field) else .ok ()
      | _ => .error (.refErr field)

/-- The per-field body of the validation loop (schema.py lines 28-82): a
missing field is permitted; otherwise the rules run in source order and the
first failure aborts. -/
def checkField (field : String) (rules : FieldRules) (doc : Doc)
    (existing : List Doc) (registry : List Value)
    (cols : List (String × Collection)) : Except ValidationError Unit :=
  match dictGet doc field with
  | none => .ok ()
  | some val =>
    match checkType field rules val with
    | .error e => .error e
    | .ok _ =>
    match checkUnique field rules val existing registry with
    | .error e => .error e
    | .ok _ =>
    match checkLength field rules val with
    | .error e => .error e
    | .ok _ =>
    match checkNumeric field rules val with
    | .error e => .error e
    | .ok _ =>
    match checkEnum field rules val with
    | .error e => .error e
    | .ok _ => checkRef field rules val cols

/-- The field loop of `Schema.validate` in schema declaration order. -/
def validateFields (sch : Schema) (doc : Doc) (existing : List Doc)
    (cols : List (String × Collection)) :
    List (String × FieldRules) → Except ValidationError Unit
  | [] => .ok ()
  | (f, r) :: rest =>
    match checkField f r doc existing (sch.registryOf f) cols with
    | .error e => .error e
    | .ok _ => validateFields sch doc existing cols rest

/-- `Schema.validate(doc, existing_docs, collections)` (schema.py lines
18-84). -/
def Schema.validate (sch : Schema) (doc : Doc) (existing : List Doc)
    (cols : List (String × Collection)) : Except ValidationError Unit :=
  validateFields sch doc existing cols sch.fields

/-! ## Collection operations (`src/py_nosql/document/collection.py`) -/

/-- The memtable pass of `Collection._scan_docs` (collection.py lines
108-114): yield every present prefixed entry and record its id in `seen`.  A
tombstoned entry is skipped by `v is None` **without** entering `seen`
(line 109), so it does not shadow older SSTable records. -/
def memScan (pfx : String) :
    List (String × Option Doc) → List String →
    List (String × Doc) × List String
  | [], seen => ([], seen)
  | (k, v) :: rest, seen =>
    if pyStartsWith k pfx then
      match v with
      | none => memScan pfx rest seen
      | some d =>
        let docId := pyDrop k (pyLen pfx)
        let out := memScan pfx rest (seen ++ [docId])
        ((docId, d) :: out.1, out.2)
    else memScan pfx rest seen

/-- The record loop of the SSTable pass of `_scan_docs` (collection.py lines
117-133): skip ids already seen; a tombstone is skipped (`continue` at line
130) **without** entering `seen`; a present value is yielded and its id
recorded. -/
def sstScan (pfx : String) :
    List (String × Option Doc) → List String →
    List (String × Doc) × List String
  | [], seen => ([], seen)
  | (k, v) :: rest, seen =>
    if pyStartsWith k pfx then
      let docId := pyDrop k (pyLen pfx)
      if seen.contains docId then sstScan pfx rest seen
      else
        match v with
        | none => sstScan pfx rest seen
        | some d =>
          let out := sstScan pfx rest (seen ++ [docId])
          ((docId, d) :: out.1, out.2)
    else sstScan pfx rest seen

/-- The SSTable pass of `_scan_docs` over `reversed(self.engine.sstables)`
(collection.py lines 116-133). -/
def sstablesScan (pfx : String) :
    List (SSTable Doc) → List String → List (String × Doc)
  | [], _ => []
  | sst :: rest, seen =>
    let out := sstScan pfx sst.records seen
    out.1 ++ sstablesScan pfx rest out.2

/-- `Collection._scan_docs()` (collection.py lines 105-133): the lazy merged
iteration, memtable first, then SSTables newest to oldest. -/
def Collection.scanDocs (c : Collection) : List (String × Doc) :=
  let memOut := memScan c.pfx c.engine.memtable []
  memOut.1 ++ sstablesScan c.pfx c.engine.sstables.reverse memOut.2

/-- The limit cut of `find_all` (collection.py lines 140-141): `limit` is
applied only when truthy, so `None` and `0` both mean unlimited. -/
def applyLimit (l : List (String × Doc)) : Option Nat → List (String × Doc)
  | none => l
  | some 0 => l
  | some (n + 1) => l.take (n + 1)

/-- `Collection.find_all(filter=None, limit)` (collection.py lines 135-142)
at the call shapes the claims use: every relevant call site passes
`filter=None` and `_matches(doc, None)` is `True` (lines 152-153), so the
scan is returned whole up to the limit.  Results are the `(doc_id, doc)`
pairs wrapped by `DocumentWrapper`. -/
def Collection.find_all (c : Collection) (limit : Option Nat) :
    List (String × Doc) :=
  applyLimit c.scanDocs limit

/-- The errors a collection operation surfaces to its caller. -/
inductive DBError
  | validation (e : ValidationError)
  | storage (msg : String)
  | notFound (docId : String)
  | attrErr (msg : String)
deriving DecidableEq

/-- `any("unique" in rules for rules in self.schema.fields.values())`
(collection.py line 39): key presence, not truthiness. -/
def Collection.hasUniqueRules (c : Collection) : Bool :=
  match c.schema with
  | some sch => sch.fields.any (fun fr => fr.2.unique?.isSome)
  | none => false

/-- `Collection._to_stored(doc)` (collection.py lines 18-21): re-validate
with no existing documents and no collections dict, then `json.dumps`
(modeled as the identity on `Doc`). -/
def Collection.toStored (c : Collection) (doc : Doc) :
    Except ValidationError Doc :=
  match c.schema with
  | some sch =>
    match sch.validate doc [] [] with
    | .error e => .error e
    | .ok _ => .ok doc
  | none => .ok doc

/-- `Collection.insert(doc, doc_id, collections)` (collection.py lines
26-56): default the id (`uuid.uuid4()` is modeled as the caller-provided
fresh string `uuid`), gather the existing documents when any field has a
`unique` rule key, validate, store through `engine.put`, then register the
unique values.  There is no check that `doc_id` is fresh.  An exception at
any step aborts the remaining steps but keeps the mutations made before
it. -/
def Collection.insert (c : Collection) (doc : Doc) (docId? : Option String)
    (uuid : String) (cols : List (String × Collection)) :
    Collection × Except DBError String :=
  let docId := docId?.getD uuid
  let existing : List Doc :=
    if c.hasUniqueRules then (c.find_all none).map (fun r => r.2) else []
  let validated : Except ValidationError Unit :=
    match c.schema with
    | some sch => sch.validate doc existing cols
    | none => .ok ()
  match validated with
  | .error e => (c, .error (.validation e))
  | .ok _ =>
    match c.toStored doc with
    | .error e => (c, .error (.validation e))
    | .ok stored =>
      let pr := c.engine.put (c.key docId) stored
      let c1 : Collection := { c with engine := pr.1 }
      match pr.2 with
      | .error msg => (c1, .error (.storage msg))
      | .ok _ =>
        match c1.schema with
        | some sch =>
          ({ c1 with schema := some (sch.register doc) }, .ok docId)
        | none => (c1, .ok docId)

/-- `Collection.update(doc_id, updates, collections)` (collection.py lines
62-103): a missing id raises `KeyError(f"{doc_id} not found")`; for an
existing id the very next statement is `if self.model_cls:` (line 76), and
`Collection` never assigns a `model_cls` attribute and defines no attribute
fallback, so Python raises `AttributeError` before merging, validating or
writing anything. -/
def Collection.update (c : Collection) (docId : String) (_ : Doc)
    (_ : List (String × Collection)) : Collection × Except DBError Unit :=
  match c.get docId with
  | none => (c, .error (.notFound docId))
  | some _ =>
    (c, .error (.attrErr "Collection object has no attribute model_cls"))

/-! ## Concrete states used as failing inputs and witnesses -/

/-- Engine whose older SSTable stores `"k" → "v"` and whose newer SSTable
stores a tombstone for `"k"`; the memtable is empty. -/
def engC1 : LSMEngine String :=
  ⟨⟨[]⟩, [], 2000, [⟨[("k", some "v")], []⟩, ⟨[("k", none)], []⟩]⟩

/-- A freshly opened engine over document payloads. -/
def engFresh : LSMEngine Doc := ⟨⟨[]⟩, [], 2000, []⟩

/-- The document `{"v": 1}`. -/
def docC3 : Doc := [("v", .vInt 1)]

/-- A WAL file whose first line is a well-formed put record and whose final
line is torn mid-record. -/
def walC4 : WAL String := ⟨[.putLine "a" (some "1"), .corrupt "op:pu"]⟩

/-- Engine holding a single SSTable with one live record. -/
def engC5 : LSMEngine String := ⟨⟨[]⟩, [], 2000, [⟨[("k", some "v")], []⟩]⟩

/-- An SSTable whose data file holds the single record `"a" → "x"` and whose
index samples `"a"` at offset `0`. -/
def sstC6 : SSTable String := ⟨[("a", some "x")], [("a", 0)]⟩

/-- Engine with `memtable_limit = 1`, so the first put reaches the
threshold. -/
def engC7 : LSMEngine String := ⟨⟨[]⟩, [], 1, []⟩

/-- A field-rule set whose only rule key is a truthy `unique`. -/
def uniqueOnly : FieldRules := { FieldRules.empty with unique? := some true }

/-- Schema with the single field `"name"` constrained unique. -/
def schC8 : Schema := Schema.ofFields [("name", uniqueOnly)]

/-- Engine already holding the live document `u:1 → {"name": "Bob"}` in its
memtable. -/
def engC8 : LSMEngine Doc :=
  ⟨⟨[]⟩, [("u:1", some [("name", .vStr "Bob")])], 2000, []⟩

/-- Collection `u` over `engC8` with schema `schC8`. -/
def collC8 : Collection := ⟨engC8, "u:", some schC8⟩

/-- A second document carrying the already-taken unique value. -/
def docC8 : Doc := [("name", .vStr "Bob")]

/-- Schemaless collection holding the live document `p:1 → {"a": 1}`. -/
def collC9 : Collection :=
  ⟨⟨⟨[]⟩, [("p:1", some [("a", .vInt 1)])], 2000, []⟩, "p:", none⟩

/-- Schema with the single field `"F"` constrained unique. -/
def schC10 : Schema := Schema.ofFields [("F", uniqueOnly)]

/-- Engine holding the live document `u:1 → {"F": "x"}` in its memtable. -/
def engC10 : LSMEngine Doc := ⟨⟨[]⟩, [("u:1", some [("F", .vStr "x")])], 2000, []⟩

/-- Collection over `engC10` with schema `schC10`. -/
def collC10 : Collection := ⟨engC10, "u:", some schC10⟩

/-- Schemaless collection over an engine holding `w:1 → {"a": 1}`, for the
overwrite witness. -/
def engC10w : LSMEngine Doc := ⟨⟨[]⟩, [("w:1", some [("a", .vInt 1)])], 2000, []⟩

/-! ## Helper lemmas on the dict primitives and the validator -/

theorem any_beq_of_dictGet_some {β : Type} (m : List (String × β)) (k : String)
    (b : β) (h : dictGet m k = some b) :
    m.any (fun kv => kv.1 == k) = true := by
  unfold dictGet at h
  cases hf : m.find? (fun kv => kv.1 == k) with
  | none => rw [hf] at h; simp at h
  | some kv =>
    have hm := List.mem_of_find?_eq_some hf
    have hp := List.find?_some hf
    exact List.any_eq_true.mpr ⟨kv, hm, hp⟩

theorem dictSet_length_of_any {β : Type} (m : List (String × β)) (k : String)
    (v : β) (h : m.any (fun kv => kv.1 == k) = true) :
    (dictSet m k v).length = m.length := by
  simp [dictSet, h]

theorem find?_map_update {β : Type} (m : List (String × β)) (k : String)
    (v : β) (h : m.any (fun kv => kv.1 == k) = true) :
    (m.map (fun kv => if kv.1 == k then (k, v) else kv)).find?
      (fun kv => kv.1 == k) = some (k, v) := by
  induction m with
  | nil => simp at h
  | cons a t ih =>
    by_cases ha : (a.1 == k) = true
    · simp only [List.map_cons, ha, if_pos]
      exact List.find?_cons_of_pos _ (by simp)
    · have h' : t.any (fun kv => kv.1 == k) = true := by
        rcases List.any_eq_true.mp h with ⟨x, hx, hpx⟩
        rcases List.mem_cons.mp hx with rfl | hx
        · exact absurd hpx ha
        · exact List.any_eq_true.mpr ⟨x, hx, hpx⟩
      simp only [List.map_cons, ha, if_neg, Bool.not_eq_true]
      rw [List.find?_cons_of_neg _ (by simpa using ha)]
      exact ih h'

theorem dictGet_dictSet_of_any {β : Type} (m : List (String × β)) (k : String)
    (v : β) (h : m.any (fun kv => kv.1 == k) = true) :
    dictGet (dictSet m k v) k = some v := by
  unfold dictGet dictSet
  rw [if_pos h, find?_map_update m k v h]
  rfl

theorem validateFields_append_ok (sch : Schema) (doc : Doc)
    (existing : List Doc) (cols : List (String × Collection))
    (l1 l2 : List (String × FieldRules))
    (h : ∀ p ∈ l1,
      checkField p.1 p.2 doc existing (sch.registryOf p.1) cols = .ok ()) :
    validateFields sch doc existing cols (l1 ++ l2) =
      validateFields sch doc existing cols l2 := by
  induction l1 with
  | nil => rfl
  | cons a t ih =>
    obtain ⟨f, r⟩ := a
    have ha := h (f, r) (List.mem_cons_self _ _)
    rw [List.cons_append]
    simp only [validateFields, ha]
    exact ih (fun p hp => h p (List.mem_cons_of_mem _ hp))

theorem checkType_ok_of_all (field : String) (rules : FieldRules) (v : Value)
    (h : rules.type?.all (fun t => isinstance v t) = true) :
    checkType field rules v = .ok () := by
  cases hT : rules.type? with
  | none => simp [checkType, hT]
  | some t =>
    rw [hT] at h
    simp only [Option.all_some] at h
    simp [checkType, hT, h]

theorem any_map_snd {α β : Type} (l : List α) (f : α → β) (p : β → Bool) :
    (l.map f).any p = l.any (fun a => p (f a)) := by
  induction l with
  | nil => rfl
  | cons a t ih => simp [List.any_cons, ih]

theorem insert_error_of_validate (c : Collection) (sch : Schema) (doc : Doc)
    (docId? : Option String) (uuid : String)
    (cols : List (String × Collection)) (e : ValidationError)
    (hs : c.schema = some sch)
    (hv : sch.validate doc
      (if c.hasUniqueRules then (c.find_all none).map (fun r => r.2) else [])
      cols = .error e) :
    c.insert doc docId? uuid cols = (c, .error (.validation e)) := by
  unfold Collection.insert
  simp only [hs, hv]

/-! ## The claims -/

/-- C1: the claim states that `LSMEngine.get` returns the first hit searching
SSTables newest-to-oldest where a hit may be a present value or a tombstone,
so a tombstone in a newer SSTable hides an older value, and not-found arises
only when no SSTable contains the key.  The code refutes it: on `engC1`,
whose newer SSTable holds a tombstone for `"k"` and whose older SSTable holds
`"k" → "v"`, `get` returns the older `"v"` — the guard
`v is not None or v is None and self._exists_in_sstable(sst, key)` collapses
to `v is not None`, and `SSTable.get` returns `None` for a stored tombstone,
so the tombstone is skipped instead of hiding the older value. -/
theorem get_returns_older_value_despite_newer_tombstone :
    engC1.get "k" = some "v" := rfl

/-- C2: the claim states that `LSMEngine.delete` appends a del record through
the WAL's `append_del` and then writes the tombstone into the memtable.  The
code refutes it: `WAL` defines no `append_del` method, so every `delete` call
raises `AttributeError` and changes nothing — no del record, no tombstone. -/
theorem delete_raises_attribute_error {α : Type} (e : LSMEngine α)
    (key : String) :
    e.delete key =
      (e, .error "AttributeError: WAL object has no attribute append_del") :=
  rfl

/-- C3: the claim states that a key written then deleted reads as absent and
is not surfaced by `find_all`.  The code refutes it: on a fresh engine,
`put "users:1" {"v": 1}` succeeds, the subsequent `delete` raises
`AttributeError` (no `WAL.append_del`) leaving the engine unchanged, so
`get` still returns the document and `find_all` still surfaces id `"1"`. -/
theorem written_then_deleted_still_visible :
    (engFresh.put "users:1" docC3).2 = .ok () ∧
    ((engFresh.put "users:1" docC3).1.delete "users:1").2 =
      .error "AttributeError: WAL object has no attribute append_del" ∧
    ((engFresh.put "users:1" docC3).1.delete "users:1").1.get "users:1" =
      some docC3 ∧
    (Collection.mk ((engFresh.put "users:1" docC3).1.delete "users:1").1
      "users:" none).find_all none = [("1", docC3)] :=
  ⟨rfl, rfl, rfl, rfl⟩

/-- C4: the claim states that `WAL.replay` stops at the first unparseable
record and returns the mapping folded from all earlier records.  The code
refutes it: `replay` wraps `json.loads(line)` in no handler, so on `walC4`
(a good put record followed by a torn line) the parse error propagates and
no mapping — in particular not the prior record `a → "1"` — is returned. -/
theorem replay_raises_on_torn_final_line :
    walC4.replay = .error "json.JSONDecodeError" := rfl

/-- C5: the claim states that `compact` leaves exactly one tombstone-free
SSTable holding every newest-wins surviving record.  The code refutes it: on
`engC5` (one SSTable with the single live record `k → "v"`) the merge
succeeds but `SSTable.write` evaluates `i % SSTable.INDEX_SAMPLE` with
`INDEX_SAMPLE = 0` and raises `ZeroDivisionError` at the first record, so no
compacted SSTable is written and the engine state is unchanged. -/
theorem compact_raises_zero_division :
    engC5.compact =
      (engC5, .error "ZeroDivisionError: integer division or modulo by zero") :=
  rfl

/-- C6: the claim states that `SSTable.get` seeks to the offset of the
largest sampled key `≤ K` and scans forward, returning the stored value of
the record for `K`.  The code refutes it: on `sstC6`, whose index samples
`"a"` at offset 0 and whose data holds `a → "x"`, `get "a"` returns `None` —
the candidates branch binds `start_key`/`start_offset` but contains no scan
(the scan loop exists only in the no-candidates branch), so control falls
off the end of the function. -/
theorem sstable_get_returns_none_with_candidates :
    sstC6.get "a" = none := rfl

/-- C7: the claim states that reaching the memtable threshold triggers one
flush after which the memtable is empty, a new sorted SSTable is appended
and the WAL is retired.  The code refutes it: on `engC7`
(`memtable_limit = 1`), `put "a" "1"` reaches the threshold and flush calls
`SSTable.write`, which raises `ZeroDivisionError` (`INDEX_SAMPLE = 0`); the
put leaves the record in the memtable, appends no SSTable and does not reset
the WAL. -/
theorem put_at_threshold_flush_raises :
    engC7.put "a" "1" =
      (⟨⟨[.putLine "a" (some "1")]⟩, [("a", some "1")], 1, []⟩,
       .error "ZeroDivisionError: integer division or modulo by zero") :=
  rfl

/-- C8: inserting a document whose uniqueness-constrained field `F` carries
the value of an existing live document fails with the unique validation
error for `F`, and returns the collection unchanged — stored data and
uniqueness registry included.  Hypotheses: the schema declares `F` with a
truthy `unique` rule, every schema field before `F` validates, `F`'s type
rule (if any) accepts the value, and some live document surfaced by
`find_all` already carries the value. -/
theorem insert_duplicate_unique_rejected
    (eng : LSMEngine Doc) (pfx : String) (l1 l2 : List (String × FieldRules))
    (F : String) (rF : FieldRules) (reg : List (String × List Value))
    (doc : Doc) (v : Value) (docId? : Option String) (uuid : String)
    (cols : List (String × Collection)) (sch : Schema) (c : Collection)
    (hsch : sch = ⟨l1 ++ (F, rF) :: l2, reg⟩)
    (hc : c = ⟨eng, pfx, some sch⟩)
    (hu : rF.unique? = some true)
    (hval : dictGet doc F = some v)
    (hty : rF.type?.all (fun t => isinstance v t) = true)
    (hpre : ∀ p ∈ l1, checkField p.1 p.2 doc
        ((c.find_all none).map (fun r => r.2)) (sch.registryOf p.1) cols =
        .ok ())
    (hdup : (c.find_all none).any (fun r => dictGet r.2 F == some v) = true) :
    c.insert doc docId? uuid cols =
      (c, .error (.validation (.uniqueErr F))) := by
  have hfields : sch.fields = l1 ++ (F, rF) :: l2 := by rw [hsch]
  have hU : c.hasUniqueRules = true := by
    rw [hc]
    simp only [Collection.hasUniqueRules]
    rw [hfields]
    simp [List.any_append, hu]
  have hex : ((c.find_all none).map (fun r => r.2)).any
      (fun d => dictGet d F == some v) = true := by
    rw [any_map_snd]
    exact hdup
  have hun : checkUnique F rF v ((c.find_all none).map (fun r => r.2))
      (sch.registryOf F) = .error (.uniqueErr F) := by
    simp [checkUnique, hu, hex]
  have hcf : checkField F rF doc ((c.find_all none).map (fun r => r.2))
      (sch.registryOf F) cols = .error (.uniqueErr F) := by
    simp [checkField, hval, checkType_ok_of_all F rF v hty, hun]
  have hvf : sch.validate doc ((c.find_all none).map (fun r => r.2)) cols =
      .error (.uniqueErr F) := by
    unfold Schema.validate
    rw [hfields, validateFields_append_ok _ _ _ _ _ _ hpre]
    simp only [validateFields, hcf]
  apply insert_error_of_validate c sch doc docId? uuid cols _ (by rw [hc])
  rw [hU]
  simpa using hvf

/-- C8 witness: on `collC8`, which already holds the live document
`{"name": "Bob"}`, inserting a second `{"name": "Bob"}` fails with the
unique error for `"name"` and leaves the collection unchanged. -/
theorem insert_duplicate_unique_rejected_witness :
    collC8.insert docC8 (some "2") "ignored" [] =
      (collC8, .error (.validation (.uniqueErr "name"))) :=
  insert_duplicate_unique_rejected engC8 "u:" [] [] "name" uniqueOnly
    [("name", [])] docC8 (.vStr "Bob") (some "2") "ignored" [] schC8 collC8
    rfl rfl rfl rfl rfl (fun p hp => absurd hp (List.not_mem_nil p)) rfl

/-- C9: the claim states that `update` merges the patch into the fetched
document, validates with the current document excluded, and writes it back,
erroring with not-found only for a missing id.  The code refutes the
existing-id half: on `collC9`, which holds the live document `p:1`,
`update "1"` raises `AttributeError` because line 76 of collection.py reads
`self.model_cls`, an attribute never assigned — nothing is merged, validated
or written.  The missing-id half behaves as claimed (`KeyError`). -/
theorem update_raises_on_model_cls :
    collC9.get "1" = some [("a", .vInt 1)] ∧
    collC9.update "1" [("b", .vInt 2)] [] =
      (collC9, .error (.attrErr "Collection object has no attribute model_cls")) ∧
    collC9.update "9" [] [] = (collC9, .error (.notFound "9")) :=
  ⟨rfl, rfl, rfl⟩

/-- C10 counterexample: the claim states that insert with an identifier
naming a live document never fails.  On `collC10`, whose schema makes `"F"`
unique and which holds the live document `u:1 → {"F": "x"}`, re-inserting
`{"F": "x"}` under the same id `"1"` fails with the unique validation error
(the live document under the very id being overwritten is counted as a
conflicting existing document), so the insert does fail. -/
theorem insert_existing_id_can_fail :
    collC10.get "1" = some [("F", .vStr "x")] ∧
    (collC10.insert [("F", .vStr "x")] (some "1") "unused" []).2 =
      .error (.validation (.uniqueErr "F")) := ⟨rfl, rfl⟩

/-- C10 (amended): insert performs no existence check on the caller-supplied
identifier; whenever schema validation accepts the document — in particular
for a schemaless collection — inserting under an identifier that names a
live document succeeds, returns that identifier, and silently overwrites the
stored document (upsert).  Hypotheses: the collection is schemaless, the
prefixed key is live in the memtable, and the memtable is below the flush
threshold. -/
theorem insert_existing_id_overwrites
    (eng : LSMEngine Doc) (pfx docId uuid : String) (doc old : Doc)
    (cols : List (String × Collection)) (c : Collection)
    (hc : c = ⟨eng, pfx, none⟩)
    (hlive : dictGet eng.memtable (pfx ++ docId) = some (some old))
    (hcap : eng.memtable.length < eng.memtable_limit) :
    (c.insert doc (some docId) uuid cols).2 = .ok docId ∧
    ((c.insert doc (some docId) uuid cols).1).get docId = some doc := by
  subst hc
  have hmem := any_beq_of_dictGet_some _ _ _ hlive
  have hlen := dictSet_length_of_any eng.memtable (pfx ++ docId) (some doc) hmem
  have hnot : ¬ ((dictSet eng.memtable (pfx ++ docId) (some doc)).length ≥
      eng.memtable_limit) := by
    rw [hlen]; exact Nat.not_le.mpr hcap
  have hget := dictGet_dictSet_of_any eng.memtable (pfx ++ docId) (some doc) hmem
  constructor
  · simp [Collection.insert, Collection.hasUniqueRules, Collection.toStored,
          Collection.key, LSMEngine.put, hnot]
  · simp [Collection.insert, Collection.hasUniqueRules, Collection.toStored,
          Collection.key, LSMEngine.put, hnot, Collection.get, LSMEngine.get,
          hget]

/-- C10 witness: on a schemaless collection holding `w:1 → {"a": 1}`,
inserting `{"a": 2}` under the live id `"1"` succeeds and the stored
document is replaced. -/
theorem insert_existing_id_overwrites_witness :
    ((Collection.mk engC10w "w:" none).insert [("a", .vInt 2)]
      (some "1") "u" []).2 = .ok "1" ∧
    (((Collection.mk engC10w "w:" none).insert [("a", .vInt 2)]
      (some "1") "u" []).1).get "1" = some [("a", .vInt 2)] :=
  insert_existing_id_overwrites engC10w "w:" "1" "u" [("a", .vInt 2)]
    [("a", .vInt 1)] [] _ rfl rfl (by decide)

end PyNoSql
